import Mathlib

/-!
Verification of the auth backend (`src/main.py`, `src/schemas.py`).

The backend is a FastAPI service over a MongoDB `user` collection with four
operations: signup, login, forgot-password, reset-password.  We embed it as
pure Lean functions:

* the store is a `List UserRecord` (MongoDB `find_one` = first list element
  matching the filter, `update_one` = rewrite the first record whose `_id`
  matches, `insert_one` = append with a store-assigned fresh id);
* timestamps are `Int` (seconds); each `datetime.now(timezone.utc)` call in a
  handler becomes its own explicit time parameter, passed in source order,
  since distinct calls may observe distinct instants;
* bcrypt hashing (`passlib` `CryptContext`) is modelled by its contract: a
  hash carries the salt and verification succeeds exactly for the password
  that produced the hash;
* `random.randint(0, 999999)` becomes a `Fin 1000000` parameter;
* a handler returns the (possibly updated) store together with
  `Except HTTPException AuthResponse`; error paths return the store
  unchanged, mirroring that the Python code performs no write there.
-/

namespace AuthBackend

/-- Model of a bcrypt hash produced by `hash_password` (src/main.py line 89):
the stored salt together with the digest, where verification succeeds exactly
for the originating password (the documented contract of
`pwd_context.hash`/`pwd_context.verify`). -/
structure BcryptHash where
  salt : Nat
  digestOf : String
deriving DecidableEq

/-- `hash_password` (src/main.py lines 88-89): salted irreversible hash. -/
def hash_password (password : String) (salt : Nat) : BcryptHash :=
  ⟨salt, password⟩

/-- `verify_password` (src/main.py lines 91-92): true iff `password` is the
password that produced `hashed`. -/
def verify_password (password : String) (hashed : BcryptHash) : Bool :=
  password == hashed.digestOf

/-- A document of the `user` collection (schema in src/schemas.py; the
documents inserted by `signup` in src/main.py lines 102-110).  `id` models
the store-assigned `_id`. -/
structure UserRecord where
  id : Nat
  name : String
  email : String
  password_hash : BcryptHash
  role : String
  is_active : Bool
  created_at : Int
  updated_at : Int
  reset_code : Option String
  reset_expires : Option Int
deriving DecidableEq

/-- `users.find_one({"email": e})`: the first stored record with this email. -/
def find_one (users : List UserRecord) (email : String) : Option UserRecord :=
  users.find? (fun u => u.email == email)

/-- A fresh `_id` assigned by the store on insert. -/
def nextId (users : List UserRecord) : Nat :=
  users.foldr (fun u acc => max (u.id + 1) acc) 0

/-- `users.update_one({"_id": i}, ...)`: rewrite the first record whose id
matches, leave everything else in place. -/
def update_one (users : List UserRecord) (i : Nat)
    (f : UserRecord → UserRecord) : List UserRecord :=
  match users with
  | [] => []
  | u :: rest => if u.id == i then f u :: rest else u :: update_one rest i f

/-- `SignupRequest` (src/main.py lines 64-67). -/
structure SignupRequest where
  name : String
  email : String
  password : String

/-- `LoginRequest` (src/main.py lines 69-71). -/
structure LoginRequest where
  email : String
  password : String

/-- `ForgotPasswordRequest` (src/main.py lines 73-74). -/
structure ForgotPasswordRequest where
  email : String

/-- `ResetPasswordRequest` (src/main.py lines 76-79). -/
structure ResetPasswordRequest where
  email : String
  code : String
  new_password : String

/-- The pydantic `Field` constraints of `SignupRequest`: name 2-100 chars,
password 6-128 chars (email format validation by `EmailStr` is third-party
and not modelled). -/
def signupRequestValid (r : SignupRequest) : Bool :=
  2 ≤ r.name.length && r.name.length ≤ 100 &&
  6 ≤ r.password.length && r.password.length ≤ 128

/-- The pydantic `Field` constraints of `ResetPasswordRequest`
(src/main.py lines 76-79): code exactly 6 chars, new_password 6-128 chars. -/
def resetRequestValid (r : ResetPasswordRequest) : Bool :=
  6 ≤ r.code.length && r.code.length ≤ 6 &&
  6 ≤ r.new_password.length && r.new_password.length ≤ 128

/-- `fastapi.HTTPException` as raised by the handlers. -/
structure HTTPException where
  status_code : Nat
  detail : String
deriving DecidableEq

/-- `AuthResponse` (src/main.py lines 81-85). -/
structure AuthResponse where
  message : String
  token : Option String := none
  name : Option String := none
  email : Option String := none
deriving DecidableEq

/-- Outcome of a handler call: HTTP error or response body. -/
abbrev AuthResult := Except HTTPException AuthResponse

/-- `true` iff the call succeeded. -/
def resultOk : AuthResult → Bool
  | .ok _ => true
  | .error _ => false

/-- The document inserted by `signup` (src/main.py lines 102-110).  `now1`
fills `created_at` (the `datetime.now` call on line 108) and `now2` fills
`updated_at` (the separate `datetime.now` call on line 109). -/
def signupDoc (users : List UserRecord) (payload : SignupRequest) (salt : Nat)
    (now1 now2 : Int) : UserRecord :=
  { id := nextId users
    name := payload.name
    email := payload.email
    password_hash := hash_password payload.password salt
    role := "student"
    is_active := true
    created_at := now1
    updated_at := now2
    reset_code := none
    reset_expires := none }

/-- `signup` (src/main.py lines 95-112). -/
def signup (users : List UserRecord) (payload : SignupRequest) (salt : Nat)
    (now1 now2 : Int) : List UserRecord × AuthResult :=
  match find_one users payload.email with
  | some _ => (users, .error ⟨409, "Email already registered"⟩)
  | none =>
      let doc : UserRecord := signupDoc users payload salt now1 now2
      (users ++ [doc],
       .ok { message := "Signup successful"
             name := some payload.name
             email := some payload.email })

/-- `login` (src/main.py lines 114-125). -/
def login (users : List UserRecord) (payload : LoginRequest) :
    List UserRecord × AuthResult :=
  match find_one users payload.email with
  | none => (users, .error ⟨401, "Invalid email or password"⟩)
  | some user =>
      if verify_password payload.password user.password_hash then
        (users,
         .ok { message := "Login successful"
               token := some ("token_" ++ toString user.id)
               name := some user.name
               email := some user.email })
      else
        (users, .error ⟨401, "Invalid email or password"⟩)

/-- The character for the decimal digit `d`. -/
def digitChar (d : Nat) : Char :=
  Char.ofNat (48 + d)

/-- Decimal digits of `n`, most significant first (the `d` conversion of
Python's format mini-language). -/
def decimalDigits (n : Nat) : List Char :=
  if _h : n < 10 then [digitChar n]
  else decimalDigits (n / 10) ++ [digitChar (n % 10)]
decreasing_by exact Nat.div_lt_self (by omega) (by omega)

/-- Python's `f"{n:06d}"`: the decimal rendering of `n`, left-padded with
zeros to a minimum width of 6. -/
def format06d (n : Nat) : String :=
  String.mk (List.replicate (6 - (decimalDigits n).length) '0' ++ decimalDigits n)

/-- The `$set` document of `forgot_password`'s `update_one`
(src/main.py line 138): store the code and its expiry on the record. -/
def applyForgot (code : String) (expires : Int) (u : UserRecord) : UserRecord :=
  { u with reset_code := some code, reset_expires := some expires }

/-- `forgot_password` (src/main.py lines 127-140).  `rand` is the value of
`random.randint(0, 999999)` on line 136, `now` the `datetime.now` call on
line 137. -/
def forgot_password (users : List UserRecord) (payload : ForgotPasswordRequest)
    (rand : Fin 1000000) (now : Int) : List UserRecord × AuthResult :=
  match find_one users payload.email with
  | none =>
      (users, .ok { message := "If the email exists, a reset code has been generated." })
  | some user =>
      let code := format06d rand.val
      let expires := now + 15 * 60
      (update_one users user.id (applyForgot code expires),
       .ok { message := "Reset code generated (demo)", token := some code })

/-- The `$set`/`$unset` document of `reset_password`'s `update_one`
(src/main.py lines 153-157): replace the password hash, refresh
`updated_at`, and unset both reset fields, all in one update. -/
def applyReset (payload : ResetPasswordRequest) (salt : Nat) (now2 : Int)
    (u : UserRecord) : UserRecord :=
  { u with
    password_hash := hash_password payload.new_password salt
    updated_at := now2
    reset_code := none
    reset_expires := none }

/-- `reset_password` (src/main.py lines 142-158).  `now1` is the
`datetime.now` call of the expiry check on line 150, `now2` the one stored
into `updated_at` on line 155, `salt` the salt drawn by bcrypt. -/
def reset_password (users : List UserRecord) (payload : ResetPasswordRequest)
    (salt : Nat) (now1 now2 : Int) : List UserRecord × AuthResult :=
  match find_one users payload.email with
  | none => (users, .error ⟨400, "Invalid code or email"⟩)
  | some user =>
      if user.reset_code ≠ some payload.code then
        (users, .error ⟨400, "Invalid code or email"⟩)
      else
        match user.reset_expires with
        | none => (users, .error ⟨400, "Reset code expired"⟩)
        | some expires =>
            if now1 > expires then
              (users, .error ⟨400, "Reset code expired"⟩)
            else
              (update_one users user.id (applyReset payload salt now2),
               .ok { message := "Password reset successful" })

/-- The `/auth/reset` endpoint as seen by a caller: FastAPI validates the
pydantic request model first (422 on violation, the handler body never runs
and the store is never touched), then runs `reset_password`. -/
def reset_password_endpoint (users : List UserRecord) (payload : ResetPasswordRequest)
    (salt : Nat) (now1 now2 : Int) : List UserRecord × AuthResult :=
  if resetRequestValid payload then reset_password users payload salt now1 now2
  else (users, .error ⟨422, "Unprocessable Entity"⟩)

/-- The schema invariant on a record: `reset_code` and `reset_expires` are
both present or both absent. -/
def resetConsistent (u : UserRecord) : Prop :=
  u.reset_code.isSome = u.reset_expires.isSome

/-- MongoDB enforces uniqueness of `_id` within a collection. -/
def UniqueIds (users : List UserRecord) : Prop :=
  users.Pairwise (fun a b => a.id ≠ b.id)

lemma find_one_decomp {users : List UserRecord} {e : String} {u : UserRecord}
    (h : find_one users e = some u) :
    ∃ l1 l2, users = l1 ++ u :: l2 ∧ (∀ v ∈ l1, (v.email == e) = false) ∧
      (u.email == e) = true := by
  induction users with
  | nil => simp [find_one] at h
  | cons v rest ih =>
      by_cases hv : (v.email == e) = true
      · have hu : u = v := by
          have hh : some v = some u := by simpa [find_one, List.find?, hv] using h
          exact (Option.some.inj hh).symm
        subst hu
        exact ⟨[], rest, by simp, by simp, hv⟩
      · simp only [Bool.not_eq_true] at hv
        have h' : find_one rest e = some u := by
          simpa [find_one, List.find?, hv] using h
        obtain ⟨l1, l2, hsplit, hl1, hu⟩ := ih h'
        exact ⟨v :: l1, l2, by simp [hsplit], by
          intro w hw
          rcases List.mem_cons.mp hw with hw | hw
          · simpa [hw] using hv
          · exact hl1 w hw, hu⟩

lemma update_one_decomp {l1 l2 : List UserRecord} {u : UserRecord}
    (hl1 : ∀ v ∈ l1, v.id ≠ u.id) (g : UserRecord → UserRecord) :
    update_one (l1 ++ u :: l2) u.id g = l1 ++ g u :: l2 := by
  induction l1 with
  | nil => simp [update_one]
  | cons v rest ih =>
      have hv : v.id ≠ u.id := hl1 v (by simp)
      simp only [List.cons_append, update_one, beq_iff_eq, if_neg hv, List.append_eq]
      rw [ih (fun w hw => hl1 w (by simp [hw]))]

lemma find_one_over_decomp {l1 l2 : List UserRecord} {x : UserRecord} {e : String}
    (hl1 : ∀ v ∈ l1, (v.email == e) = false) (hx : (x.email == e) = true) :
    find_one (l1 ++ x :: l2) e = some x := by
  induction l1 with
  | nil => simp [find_one, List.find?, hx]
  | cons v rest ih =>
      have hv := hl1 v (by simp)
      simp only [List.cons_append, find_one, List.find?, hv]
      exact ih (fun w hw => hl1 w (by simp [hw]))

lemma unique_ids_head {l1 l2 : List UserRecord} {u : UserRecord}
    (h : UniqueIds (l1 ++ u :: l2)) : ∀ v ∈ l1, v.id ≠ u.id := by
  intro v hv
  have := (List.pairwise_append.mp h).2.2 v hv u (by simp)
  exact this

lemma mem_update_one {users : List UserRecord} {i : Nat}
    {g : UserRecord → UserRecord} {v : UserRecord}
    (h : v ∈ update_one users i g) : v ∈ users ∨ ∃ u ∈ users, v = g u := by
  induction users with
  | nil => simp [update_one] at h
  | cons w rest ih =>
      by_cases hw : (w.id == i) = true
      · simp only [update_one, hw, if_pos] at h
        rcases List.mem_cons.mp h with h | h
        · exact Or.inr ⟨w, by simp, h⟩
        · exact Or.inl (by simp [h])
      · simp only [update_one, hw, if_neg, Bool.not_eq_true] at h
        rcases List.mem_cons.mp h with h | h
        · exact Or.inl (by simp [h])
        · rcases ih h with h | ⟨u, hu, hv⟩
          · exact Or.inl (by simp [h])
          · exact Or.inr ⟨u, by simp [hu], hv⟩

lemma decimalDigits_length_le :
    ∀ k n : Nat, 0 < k → n < 10 ^ k → (decimalDigits n).length ≤ k := by
  intro k
  induction k with
  | zero => omega
  | succ k ih =>
      intro n _ hn
      by_cases h10 : n < 10
      · rw [decimalDigits, dif_pos h10]
        simp
      · rw [decimalDigits, dif_neg h10]
        have hk : 0 < k := by
          by_contra hk0
          have : k = 0 := by omega
          subst this
          simp [pow_succ, pow_zero] at hn
          omega
        have hdiv : n / 10 < 10 ^ k := by
          have hlt : n < 10 * 10 ^ k := by
            calc n < 10 ^ (k + 1) := hn
            _ = 10 * 10 ^ k := by ring
          exact Nat.div_lt_of_lt_mul hlt
        have := ih (n / 10) hk hdiv
        simp only [List.length_append, List.length_cons, List.length_nil]
        omega

lemma decimalDigits_ne_nil (n : Nat) : decimalDigits n ≠ [] := by
  by_cases h10 : n < 10
  · rw [decimalDigits, dif_pos h10]; simp
  · rw [decimalDigits, dif_neg h10]; simp

lemma format06d_length {n : Nat} (h : n < 1000000) : (format06d n).length = 6 := by
  have hlen : (decimalDigits n).length ≤ 6 := by
    have : (1000000 : Nat) = 10 ^ 6 := by norm_num
    exact decimalDigits_length_le 6 n (by omega) (by omega)
  have hpos : 0 < (decimalDigits n).length :=
    List.length_pos.mpr (decimalDigits_ne_nil n)
  show (String.mk _).length = 6
  simp only [String.length, List.length_append, List.length_replicate]
  omega

lemma digitChar_isDigit {d : Nat} (h : d < 10) : (digitChar d).isDigit = true := by
  interval_cases d <;> decide

lemma decimalDigits_isDigit :
    ∀ n : Nat, ∀ c ∈ decimalDigits n, c.isDigit = true := by
  intro n
  induction n using Nat.strong_induction_on with
  | _ n ih =>
      intro c hc
      by_cases h10 : n < 10
      · rw [decimalDigits, dif_pos h10] at hc
        simp only [List.mem_singleton] at hc
        exact hc ▸ digitChar_isDigit h10
      · rw [decimalDigits, dif_neg h10] at hc
        rcases List.mem_append.mp hc with hc | hc
        · exact ih (n / 10) (Nat.div_lt_self (by omega) (by omega)) c hc
        · simp only [List.mem_singleton] at hc
          exact hc ▸ digitChar_isDigit (Nat.mod_lt n (by omega))

lemma format06d_isDigit {n : Nat} : ∀ c ∈ (format06d n).data, c.isDigit = true := by
  intro c hc
  simp only [format06d, String.data, List.mem_append, List.mem_replicate] at hc
  rcases hc with ⟨-, hc⟩ | hc
  · simp [hc]
  · exact decimalDigits_isDigit n c hc

/-! Concrete fixtures used by the witness theorems. -/

/-- A stored record as inserted by a signup of Ann. -/
def annRecord : UserRecord :=
  { id := 0
    name := "Ann"
    email := "ann@x.com"
    password_hash := hash_password "secret1" 7
    role := "student"
    is_active := true
    created_at := 0
    updated_at := 0
    reset_code := none
    reset_expires := none }

/-- Ann's record while a password reset is pending. -/
def annPending : UserRecord :=
  { annRecord with reset_code := some "123456", reset_expires := some 1000 }

/-! ## Claim theorems -/

/-- C5: a signup whose email matches an existing record fails with 409
Conflict ("Email already registered") and performs no store mutation: the
returned store is exactly the input store, so no record is inserted and the
existing record is untouched. -/
theorem signup_conflict_no_mutation (users : List UserRecord) (r : SignupRequest)
    (salt : Nat) (now1 now2 : Int) (u : UserRecord)
    (hfind : find_one users r.email = some u) :
    signup users r salt now1 now2 = (users, .error ⟨409, "Email already registered"⟩) := by
  simp [signup, hfind]

theorem signup_conflict_no_mutation_witness :
    signup [annRecord] ⟨"Bob", "ann@x.com", "secret2"⟩ 1 2 3 =
      ([annRecord], .error ⟨409, "Email already registered"⟩) :=
  signup_conflict_no_mutation [annRecord] ⟨"Bob", "ann@x.com", "secret2"⟩ 1 2 3 annRecord rfl

/-- C6: login with an unknown email and login with a known email but a
password that fails verification produce the same outcome: the same 401
status with the same message "Invalid email or password", and in both cases
the store is returned unchanged, so the two failures are observationally
identical. -/
theorem login_uniform_unauthenticated (users1 users2 : List UserRecord)
    (p1 p2 : LoginRequest) (u : UserRecord)
    (h1 : find_one users1 p1.email = none)
    (h2 : find_one users2 p2.email = some u)
    (h3 : verify_password p2.password u.password_hash = false) :
    login users1 p1 = (users1, .error ⟨401, "Invalid email or password"⟩) ∧
    login users2 p2 = (users2, .error ⟨401, "Invalid email or password"⟩) ∧
    (login users1 p1).2 = (login users2 p2).2 := by
  refine ⟨by simp [login, h1], by simp [login, h2, h3], by simp [login, h1, h2, h3]⟩

theorem login_uniform_unauthenticated_witness :
    login [] ⟨"ann@x.com", "secret1"⟩ = ([], .error ⟨401, "Invalid email or password"⟩) ∧
    login [annRecord] ⟨"ann@x.com", "wrong1"⟩ =
      ([annRecord], .error ⟨401, "Invalid email or password"⟩) ∧
    (login [] ⟨"ann@x.com", "secret1"⟩).2 = (login [annRecord] ⟨"ann@x.com", "wrong1"⟩).2 :=
  login_uniform_unauthenticated [] [annRecord] ⟨"ann@x.com", "secret1"⟩
    ⟨"ann@x.com", "wrong1"⟩ annRecord rfl rfl rfl

/-- C7: forgot-password on an email that matches no record returns the
generic success message "If the email exists, a reset code has been
generated." (with no token, so nothing reveals non-existence) and leaves the
store completely unchanged. -/
theorem forgot_password_unknown_email_no_mutation (users : List UserRecord)
    (p : ForgotPasswordRequest) (rand : Fin 1000000) (now : Int)
    (hfind : find_one users p.email = none) :
    forgot_password users p rand now =
      (users,
       .ok { message := "If the email exists, a reset code has been generated." }) := by
  simp [forgot_password, hfind]

theorem forgot_password_unknown_email_no_mutation_witness :
    forgot_password [annRecord] ⟨"bob@x.com"⟩ 123456 0 =
      ([annRecord],
       .ok { message := "If the email exists, a reset code has been generated." }) :=
  forgot_password_unknown_email_no_mutation [annRecord] ⟨"bob@x.com"⟩ 123456 0 rfl

/-- C4: for a valid signup input whose email matches no existing record,
signup succeeds and a subsequent login with the same email and password on
the resulting store succeeds, returning the token derived from the new
record's id together with the name and email. -/
theorem signup_then_login_succeeds (users : List UserRecord) (r : SignupRequest)
    (salt : Nat) (now1 now2 : Int)
    (_hvalid : signupRequestValid r = true)
    (hfresh : find_one users r.email = none) :
    resultOk (signup users r salt now1 now2).2 = true ∧
    login (signup users r salt now1 now2).1 ⟨r.email, r.password⟩ =
      ((signup users r salt now1 now2).1,
       .ok { message := "Login successful"
             token := some ("token_" ++ toString (nextId users))
             name := some r.name
             email := some r.email }) := by
  have hl1 : ∀ v ∈ users, (v.email == r.email) = false := by
    intro v hv
    have := List.find?_eq_none.mp hfresh v hv
    simpa using this
  have hdoc : ((signupDoc users r salt now1 now2).email == r.email) = true := by
    simp [signupDoc]
  have hfind : find_one (users ++ [signupDoc users r salt now1 now2]) r.email =
      some (signupDoc users r salt now1 now2) :=
    find_one_over_decomp hl1 hdoc
  refine ⟨by simp [signup, hfresh, resultOk], ?_⟩
  simp only [signup, hfresh, login, hfind]
  simp [verify_password, hash_password, signupDoc]

theorem signup_then_login_succeeds_witness :
    resultOk (signup [] ⟨"Ann", "ann@x.com", "secret1"⟩ 7 0 0).2 = true ∧
    login (signup [] ⟨"Ann", "ann@x.com", "secret1"⟩ 7 0 0).1 ⟨"ann@x.com", "secret1"⟩ =
      ((signup [] ⟨"Ann", "ann@x.com", "secret1"⟩ 7 0 0).1,
       .ok { message := "Login successful"
             token := some ("token_" ++ toString (nextId ([] : List UserRecord)))
             name := some "Ann"
             email := some "ann@x.com" }) :=
  signup_then_login_succeeds [] ⟨"Ann", "ann@x.com", "secret1"⟩ 7 0 0 (by decide) rfl

/-- C9 counterexample: `signup` reads the clock once for `created_at`
(line 108) and again for `updated_at` (line 109); when the two reads differ
(here instants 0 and 1), the signup still succeeds and the inserted record
has `created_at ≠ updated_at`, so the claim that every successful signup
yields `created_at = updated_at` is false. -/
theorem signup_created_eq_updated_cex :
    resultOk (signup [] ⟨"Ann", "ann@x.com", "secret1"⟩ 7 0 1).2 = true ∧
    ((signup [] ⟨"Ann", "ann@x.com", "secret1"⟩ 7 0 1).1.all
        (fun d => d.created_at == d.updated_at)) = false := by
  constructor <;> rfl

/-- C9 as amended: every successful signup inserts exactly one record with
role "student", `is_active` true, `created_at` set by the first clock read
of the handler and `updated_at` by the second; the two are equal whenever
those two reads return the same instant (the handler reads the clock twice,
so they need not coincide). -/
theorem signup_inserted_record_fields (users : List UserRecord) (r : SignupRequest)
    (salt : Nat) (now1 now2 : Int) (users' : List UserRecord) (resp : AuthResponse)
    (h : signup users r salt now1 now2 = (users', .ok resp)) :
    users' = users ++ [signupDoc users r salt now1 now2] ∧
    (signupDoc users r salt now1 now2).role = "student" ∧
    (signupDoc users r salt now1 now2).is_active = true ∧
    (signupDoc users r salt now1 now2).created_at = now1 ∧
    (signupDoc users r salt now1 now2).updated_at = now2 ∧
    (now1 = now2 →
      (signupDoc users r salt now1 now2).created_at =
        (signupDoc users r salt now1 now2).updated_at) := by
  cases hfind : find_one users r.email with
  | some u => simp [signup, hfind] at h
  | none =>
      simp only [signup, hfind] at h
      rw [Prod.ext_iff] at h
      exact ⟨h.1.symm, rfl, rfl, rfl, rfl, fun hh => by simp [signupDoc, hh]⟩

theorem signup_inserted_record_fields_witness :
    (signup [] ⟨"Ann", "ann@x.com", "secret1"⟩ 7 5 5).1 =
      [] ++ [signupDoc [] ⟨"Ann", "ann@x.com", "secret1"⟩ 7 5 5] :=
  (signup_inserted_record_fields [] ⟨"Ann", "ann@x.com", "secret1"⟩ 7 5 5
      [signupDoc [] ⟨"Ann", "ann@x.com", "secret1"⟩ 7 5 5]
      { message := "Signup successful", name := some "Ann", email := some "ann@x.com" }
      rfl).1

/-- C2: `reset_password` fails with 400 "Invalid code or email" exactly when
no record matches the email or the matched record's stored `reset_code`
differs from the supplied code (in particular when no reset is pending and
`reset_code` is absent); it fails with 400 "Reset code expired" exactly when
the code matched but `reset_expires` is absent or strictly before now; and
on every failure the returned store is exactly the input store, so no record
is modified. -/
theorem reset_password_failure_characterization (users : List UserRecord)
    (p : ResetPasswordRequest) (salt : Nat) (now1 now2 : Int) :
    ((reset_password users p salt now1 now2).2 = .error ⟨400, "Invalid code or email"⟩ ↔
       find_one users p.email = none ∨
         ∃ u, find_one users p.email = some u ∧ u.reset_code ≠ some p.code) ∧
    ((reset_password users p salt now1 now2).2 = .error ⟨400, "Reset code expired"⟩ ↔
       ∃ u, find_one users p.email = some u ∧ u.reset_code = some p.code ∧
         (u.reset_expires = none ∨ ∃ e, u.reset_expires = some e ∧ e < now1)) ∧
    (∀ err, (reset_password users p salt now1 now2).2 = .error err →
       (reset_password users p salt now1 now2).1 = users) := by
  cases hfind : find_one users p.email with
  | none => simp [reset_password, hfind]
  | some u =>
      by_cases hcode : u.reset_code = some p.code
      · cases hexp : u.reset_expires with
        | none => simp [reset_password, hfind, hcode, hexp]
        | some e =>
            by_cases hlt : now1 > e
            · simp [reset_password, hfind, hcode, hexp, hlt]
            · simp [reset_password, hfind, hcode, hexp, hlt]
      · simp [reset_password, hfind, hcode]

theorem reset_password_failure_characterization_witness :
    (reset_password [annRecord] ⟨"ann@x.com", "123456", "newpass1"⟩ 3 0 0).1 =
      [annRecord] :=
  (reset_password_failure_characterization [annRecord]
      ⟨"ann@x.com", "123456", "newpass1"⟩ 3 0 0).2.2
    ⟨400, "Invalid code or email"⟩ rfl

/-- C10: the `/auth/reset` endpoint accepts a request into the handler
exactly when pydantic validation passes, which for the modelled fields means
the code is exactly 6 characters and the new password 6-128 characters; a
request violating these is rejected with 422 before the handler runs, the
store is returned unchanged, and the rejection is independent of the store
contents (so a code of any other length is never compared against a stored
`reset_code`). -/
theorem reset_endpoint_validates_first (users : List UserRecord)
    (p : ResetPasswordRequest) (salt : Nat) (now1 now2 : Int) :
    (resetRequestValid p = true ↔
       (p.code.length = 6 ∧ 6 ≤ p.new_password.length ∧ p.new_password.length ≤ 128)) ∧
    (resetRequestValid p = true →
       reset_password_endpoint users p salt now1 now2 =
         reset_password users p salt now1 now2) ∧
    (resetRequestValid p = false →
       reset_password_endpoint users p salt now1 now2 =
         (users, .error ⟨422, "Unprocessable Entity"⟩) ∧
       ∀ others : List UserRecord,
         reset_password_endpoint others p salt now1 now2 =
           (others, .error ⟨422, "Unprocessable Entity"⟩)) := by
  refine ⟨?_, ?_, ?_⟩
  · simp only [resetRequestValid, Bool.and_eq_true, decide_eq_true_eq]
    omega
  · intro h
    simp [reset_password_endpoint, h]
  · intro h
    exact ⟨by simp [reset_password_endpoint, h],
           fun others => by simp [reset_password_endpoint, h]⟩

theorem reset_endpoint_validates_first_witness :
    reset_password_endpoint [annPending] ⟨"ann@x.com", "123", "newpass1"⟩ 3 0 0 =
      ([annPending], .error ⟨422, "Unprocessable Entity"⟩) :=
  ((reset_endpoint_validates_first [annPending]
      ⟨"ann@x.com", "123", "newpass1"⟩ 3 0 0).2.2 rfl).1

/-- C1: when the record found for the email has the supplied code stored and
a present, non-elapsed expiry, `reset_password` succeeds with a single store
update rewriting exactly that record: the new record carries a fresh hash of
the new password, `updated_at` refreshed to the handler's second clock read,
and both `reset_code` and `reset_expires` cleared; replaying the same
request against the resulting store then fails with 400 "Invalid code or
email" and changes nothing, so the code is single-use. -/
theorem reset_password_success_consumes_code (users : List UserRecord)
    (p : ResetPasswordRequest) (salt : Nat) (now1 now2 : Int) (u : UserRecord)
    (e : Int)
    (huniq : UniqueIds users)
    (hfind : find_one users p.email = some u)
    (hcode : u.reset_code = some p.code)
    (hexp : u.reset_expires = some e)
    (hnow : ¬ now1 > e) :
    ∃ l1 l2,
      users = l1 ++ u :: l2 ∧
      reset_password users p salt now1 now2 =
        (l1 ++ applyReset p salt now2 u :: l2,
         .ok { message := "Password reset successful" }) ∧
      (applyReset p salt now2 u).password_hash = hash_password p.new_password salt ∧
      (applyReset p salt now2 u).updated_at = now2 ∧
      (applyReset p salt now2 u).reset_code = none ∧
      (applyReset p salt now2 u).reset_expires = none ∧
      (∀ (salt' : Nat) (now1' now2' : Int),
        reset_password (l1 ++ applyReset p salt now2 u :: l2) p salt' now1' now2' =
          (l1 ++ applyReset p salt now2 u :: l2,
           .error ⟨400, "Invalid code or email"⟩)) := by
  obtain ⟨l1, l2, hsplit, hl1, hue⟩ := find_one_decomp hfind
  have hids : ∀ v ∈ l1, v.id ≠ u.id := unique_ids_head (hsplit ▸ huniq)
  refine ⟨l1, l2, hsplit, ?_, rfl, rfl, rfl, rfl, ?_⟩
  · simp only [reset_password, hfind, hcode, hexp]
    rw [if_neg (by simp), if_neg hnow, hsplit, update_one_decomp hids]
  · intro salt' now1' now2'
    have hfind2 : find_one (l1 ++ applyReset p salt now2 u :: l2) p.email =
        some (applyReset p salt now2 u) :=
      find_one_over_decomp hl1 (by simpa [applyReset] using hue)
    simp only [reset_password, hfind2]
    simp [applyReset]

theorem reset_password_success_consumes_code_witness :
    (reset_password [annPending] ⟨"ann@x.com", "123456", "newpass1"⟩ 9 500 600).2 =
      .ok { message := "Password reset successful" } := by
  obtain ⟨l1, l2, -, heq, -⟩ :=
    reset_password_success_consumes_code [annPending]
      ⟨"ann@x.com", "123456", "newpass1"⟩ 9 500 600 annPending 1000
      (by simp [UniqueIds]) rfl rfl rfl (by decide)
  rw [heq]

/-- C8: when a record matches the email, `forgot_password` draws a number in
0-999999, renders it as a left-zero-padded 6-character digit string, stores
that code together with an expiry of now + 15 minutes onto exactly that one
record (all other records untouched), and returns the code in the response
token; a further `forgot_password` for the same user overwrites the stored
code and expiry with freshly generated ones instead of stacking. -/
theorem forgot_password_known_email_sets_code (users : List UserRecord)
    (p : ForgotPasswordRequest) (rand : Fin 1000000) (now : Int) (u : UserRecord)
    (huniq : UniqueIds users)
    (hfind : find_one users p.email = some u) :
    ∃ l1 l2,
      users = l1 ++ u :: l2 ∧
      forgot_password users p rand now =
        (l1 ++ applyForgot (format06d rand.val) (now + 15 * 60) u :: l2,
         .ok { message := "Reset code generated (demo)",
               token := some (format06d rand.val) }) ∧
      rand.val ≤ 999999 ∧
      (format06d rand.val).length = 6 ∧
      (∀ c ∈ (format06d rand.val).data, c.isDigit = true) ∧
      (applyForgot (format06d rand.val) (now + 15 * 60) u).reset_code =
        some (format06d rand.val) ∧
      (applyForgot (format06d rand.val) (now + 15 * 60) u).reset_expires =
        some (now + 15 * 60) ∧
      (∀ (rand' : Fin 1000000) (now' : Int),
        forgot_password
            (l1 ++ applyForgot (format06d rand.val) (now + 15 * 60) u :: l2)
            p rand' now' =
          (l1 ++ applyForgot (format06d rand'.val) (now' + 15 * 60) u :: l2,
           .ok { message := "Reset code generated (demo)",
                 token := some (format06d rand'.val) })) := by
  obtain ⟨l1, l2, hsplit, hl1, hue⟩ := find_one_decomp hfind
  have hids : ∀ v ∈ l1, v.id ≠ u.id := unique_ids_head (hsplit ▸ huniq)
  refine ⟨l1, l2, hsplit, ?_,
    by have := rand.isLt; omega,
    format06d_length rand.isLt, format06d_isDigit, rfl, rfl, ?_⟩
  · simp only [forgot_password, hfind]
    rw [hsplit, update_one_decomp hids]
  · intro rand' now'
    have hfind2 : find_one (l1 ++ applyForgot (format06d rand.val) (now + 15 * 60) u :: l2)
        p.email = some (applyForgot (format06d rand.val) (now + 15 * 60) u) :=
      find_one_over_decomp hl1 (by simpa [applyForgot] using hue)
    have hids2 : ∀ v ∈ l1,
        v.id ≠ (applyForgot (format06d rand.val) (now + 15 * 60) u).id := by
      simpa [applyForgot] using hids
    simp only [forgot_password, hfind2]
    rw [update_one_decomp hids2]
    rfl

theorem forgot_password_known_email_sets_code_witness :
    (forgot_password [annRecord] ⟨"ann@x.com"⟩ 123456 0).2 =
      .ok { message := "Reset code generated (demo)",
            token := some (format06d (123456 : Fin 1000000).val) } := by
  obtain ⟨l1, l2, -, heq, -⟩ :=
    forgot_password_known_email_sets_code [annRecord] ⟨"ann@x.com"⟩ 123456 0
      annRecord (by simp [UniqueIds]) rfl
  rw [heq]

/-- C3: each of the four operations preserves the per-record invariant that
`reset_code` and `reset_expires` are both present or both absent: signup
appends a record with neither field, login never writes, forgot-password
sets both fields in its single update, and reset-password either leaves the
store unchanged or clears both fields in its single update. -/
theorem auth_ops_preserve_reset_consistency (users : List UserRecord)
    (hinv : ∀ u ∈ users, resetConsistent u) :
    (∀ (r : SignupRequest) (salt : Nat) (now1 now2 : Int),
       ∀ u ∈ (signup users r salt now1 now2).1, resetConsistent u) ∧
    (∀ p : LoginRequest, ∀ u ∈ (login users p).1, resetConsistent u) ∧
    (∀ (p : ForgotPasswordRequest) (rand : Fin 1000000) (now : Int),
       ∀ u ∈ (forgot_password users p rand now).1, resetConsistent u) ∧
    (∀ (p : ResetPasswordRequest) (salt : Nat) (now1 now2 : Int),
       ∀ u ∈ (reset_password users p salt now1 now2).1, resetConsistent u) := by
  refine ⟨?_, ?_, ?_, ?_⟩
  · intro r salt now1 now2 u hu
    cases hfind : find_one users r.email with
    | some w =>
        simp only [signup, hfind] at hu
        exact hinv u hu
    | none =>
        simp only [signup, hfind] at hu
        rcases List.mem_append.mp hu with h | h
        · exact hinv u h
        · simp only [List.mem_singleton] at h
          subst h
          rfl
  · intro pl u hu
    have hstore : (login users pl).1 = users := by
      cases hfind : find_one users pl.email with
      | none => simp [login, hfind]
      | some w =>
          by_cases hv : verify_password pl.password w.password_hash <;>
            simp [login, hfind, hv]
    rw [hstore] at hu
    exact hinv u hu
  · intro pl rand now u hu
    cases hfind : find_one users pl.email with
    | none =>
        simp only [forgot_password, hfind] at hu
        exact hinv u hu
    | some w =>
        simp only [forgot_password, hfind] at hu
        rcases mem_update_one hu with h | ⟨v, hv, rfl⟩
        · exact hinv u h
        · rfl
  · intro pl salt now1 now2 u hu
    cases hfind : find_one users pl.email with
    | none =>
        simp only [reset_password, hfind] at hu
        exact hinv u hu
    | some w =>
        by_cases hcode : w.reset_code = some pl.code
        · cases hexp : w.reset_expires with
          | none =>
              simp only [reset_password, hfind, hcode, hexp] at hu
              simp at hu
              exact hinv u hu
          | some e =>
              by_cases hlt : now1 > e
              · simp only [reset_password, hfind, hcode, hexp] at hu
                rw [if_neg (by simp), if_pos hlt] at hu
                exact hinv u hu
              · simp only [reset_password, hfind, hcode, hexp] at hu
                rw [if_neg (by simp), if_neg hlt] at hu
                rcases mem_update_one hu with h | ⟨v, hv, rfl⟩
                · exact hinv u h
                · rfl
        · simp only [reset_password, hfind] at hu
          rw [if_pos (by simp [hcode])] at hu
          exact hinv u hu

theorem auth_ops_preserve_reset_consistency_witness :
    resetConsistent (signupDoc [] ⟨"Ann", "ann@x.com", "secret1"⟩ 7 0 0) :=
  (auth_ops_preserve_reset_consistency [] (by intro u hu; simp at hu)).1
    ⟨"Ann", "ann@x.com", "secret1"⟩ 7 0 0
    (signupDoc [] ⟨"Ann", "ann@x.com", "secret1"⟩ 7 0 0)
    (by decide)

end AuthBackend
